import Mathlib

/-!
Shallow embedding of the MedReminder core: the record repository in
`src/utils/storage.ts` and the scheduling predicate
`isMedicationScheduledForDate` in the calendar screen.

Modelling conventions:
* JavaScript `Date` values are epoch milliseconds, embedded as `Int`
  (a fixed-offset/UTC clock, no DST); `setHours(0,0,0,0)` is flooring to
  a multiple of `msPerDay`, and `setDate(getDate() + k)` on a midnight
  date is adding `k * msPerDay`.
* `new Date(string)` is `parseDate`, a Gregorian-calendar interpretation
  of ISO-8601 strings "YYYY-MM-DD" with an optional "THH:MM[:SS[.mmm]]"
  time part.  Strings of any other shape map to `0` (the JS `NaN` date
  semantics for garbage strings is out of scope of every claim here).
* The AsyncStorage blobs are modelled at the JSON level: the store keeps
  `Option Json` per key, `JSON.stringify`/`JSON.parse` are the explicit
  `encode*`/`decode*` functions below.  A blob that fails to decode
  corresponds to a read-time parse failure, which the source catches and
  degrades to the empty collection.
* Each primitive store access that may fail takes an explicit `Bool`
  flag (`true` = this `getItem`/`setItem` call throws).  Failing writes
  surface as `Except.error ()`; failing reads are caught inside the
  `get*` helpers exactly as in the source.
-/

/-- JSON values, as far as the two persisted record types need them
(all numeric fields of the records are integers). -/
inductive Json where
  | str (s : String)
  | num (n : Int)
  | bool (b : Bool)
  | arr (elems : List Json)
  | obj (fields : List (String × Json))

/-- Field lookup in a JSON object (first binding wins). -/
def Json.getField : Json → String → Option Json
  | .obj fields, k => fields.lookup k
  | _, _ => none

/-- `interface Medication` of `src/utils/storage.ts` (`lastRefillDate?`
is the single optional field). -/
structure Medication where
  id : String
  name : String
  dosage : String
  times : List String
  startDate : String
  duration : String
  color : String
  reminderEnabled : Bool
  reminderRepeat : Bool
  repeatCount : Int
  currentSupply : Int
  totalSupply : Int
  refillAt : Int
  refillReminder : Bool
  lastRefillDate : Option String
deriving Repr, DecidableEq

/-- `interface DoseHistory` of `src/utils/storage.ts`. -/
structure DoseHistory where
  id : String
  medicationId : String
  timestamp : String
  taken : Bool
deriving Repr, DecidableEq

/-! ## Date arithmetic (epoch milliseconds) -/

def msPerDay : Int := 86400000

/-- `setHours(0,0,0,0)`: floor an epoch-ms instant to midnight. -/
def normDate (t : Int) : Int := t - t.emod msPerDay

/-- `d.setDate(d.getDate() + n)` on a midnight date. -/
def addDays (t : Int) (n : Int) : Int := t + n * msPerDay

/-- Numeric value of a decimal digit character. -/
def digitVal (c : Char) : Nat := c.toNat - 48

/-- Epoch day number of a Gregorian calendar date (the classic
days-from-civil computation; all divisions act on non-negative values). -/
def daysFromCivil (y : Int) (m : Nat) (d : Nat) : Int :=
  let y' : Int := if m ≤ 2 then y - 1 else y
  let era : Int := Int.fdiv (if 0 ≤ y' then y' else y' - 399) 400
  let yoe : Int := y' - era * 400
  let mp : Int := if m ≤ 2 then (m : Int) + 9 else (m : Int) - 3
  let doy : Int := Int.fdiv (153 * mp + 2) 5 + (d : Int) - 1
  let doe : Int := yoe * 365 + Int.fdiv yoe 4 - Int.fdiv yoe 100 + doy
  era * 146097 + doe - 719468

/-- Milliseconds within the day denoted by an ISO time suffix
"HH:MM", "HH:MM:SS" or "HH:MM:SS.mmm" (trailing zone letters ignored). -/
def parseTimeMs : List Char → Int
  | h1 :: h2 :: ':' :: n1 :: n2 :: rest =>
    let hh : Int := (digitVal h1 * 10 + digitVal h2 : Nat)
    let mm : Int := (digitVal n1 * 10 + digitVal n2 : Nat)
    let base := hh * 3600000 + mm * 60000
    match rest with
    | ':' :: s1 :: s2 :: rest' =>
      let ss : Int := (digitVal s1 * 10 + digitVal s2 : Nat)
      match rest' with
      | '.' :: a :: b :: c :: _ =>
        base + ss * 1000 + ((digitVal a * 100 + digitVal b * 10 + digitVal c : Nat) : Int)
      | _ => base + ss * 1000
    | _ => base
  | _ => 0

/-- `new Date(s)` for ISO-8601 strings, as epoch milliseconds. -/
def parseDate (s : String) : Int :=
  match s.data with
  | [y1, y2, y3, y4, '-', m1, m2, '-', d1, d2] =>
    daysFromCivil
      ((digitVal y1 * 1000 + digitVal y2 * 100 + digitVal y3 * 10 + digitVal y4 : Nat))
      (digitVal m1 * 10 + digitVal m2) (digitVal d1 * 10 + digitVal d2) * msPerDay
  | y1 :: y2 :: y3 :: y4 :: '-' :: m1 :: m2 :: '-' :: d1 :: d2 :: 'T' :: rest =>
    daysFromCivil
      ((digitVal y1 * 1000 + digitVal y2 * 100 + digitVal y3 * 10 + digitVal y4 : Nat))
      (digitVal m1 * 10 + digitVal m2) (digitVal d1 * 10 + digitVal d2) * msPerDay
      + parseTimeMs rest
  | _ => 0

/-! ## Duration parsing: the regex `/(\d+)/` followed by `parseInt` -/

/-- Longest leading run of decimal digits. -/
def takeDigits : List Char → List Char
  | [] => []
  | c :: cs => if c.isDigit then c :: takeDigits cs else []

/-- The first maximal run of decimal digits in the string, if any
(what the regex `/(\d+)/` captures). -/
def firstDigitRun : List Char → Option (List Char)
  | [] => none
  | c :: cs => if c.isDigit then some (c :: takeDigits cs) else firstDigitRun cs

/-- `parseInt` on a run of decimal digits. -/
def digitsToNat (ds : List Char) : Nat :=
  ds.foldl (fun acc c => acc * 10 + digitVal c) 0

/-- `s.match(/(\d+)/)` followed by `parseInt` on the captured group. -/
def firstNat (s : String) : Option Nat :=
  (firstDigitRun s.data).map digitsToNat

/-! ## The scheduling predicate (calendar screen, lines 118–149) -/

/-- `isMedicationScheduledForDate(medication, date)`. -/
def isMedicationScheduledForDate (medication : Medication) (date : Int) : Bool :=
  let startDate := normDate (parseDate medication.startDate)
  let selectedDate := normDate date
  if selectedDate < startDate then
    false
  else if medication.duration ≠ "Ongoing" then
    match firstNat medication.duration with
    | some durationDays =>
      let endDate := addDays startDate ((durationDays : Int) - 1)
      if endDate < selectedDate then false else true
    | none => true
  else
    true

/-! ## JSON serialization of the two record types
(`JSON.stringify` / `JSON.parse` at the JSON-value level;
`JSON.stringify` omits an `undefined` optional field). -/

def encodeMedication (m : Medication) : Json :=
  .obj ([("id", .str m.id), ("name", .str m.name), ("dosage", .str m.dosage),
    ("times", .arr (m.times.map .str)), ("startDate", .str m.startDate),
    ("duration", .str m.duration), ("color", .str m.color),
    ("reminderEnabled", .bool m.reminderEnabled),
    ("reminderRepeat", .bool m.reminderRepeat),
    ("repeatCount", .num m.repeatCount),
    ("currentSupply", .num m.currentSupply),
    ("totalSupply", .num m.totalSupply), ("refillAt", .num m.refillAt),
    ("refillReminder", .bool m.refillReminder)] ++
    (match m.lastRefillDate with
     | some d => [("lastRefillDate", Json.str d)]
     | none => []))

def encodeDose (d : DoseHistory) : Json :=
  .obj [("id", .str d.id), ("medicationId", .str d.medicationId),
    ("timestamp", .str d.timestamp), ("taken", .bool d.taken)]

def Json.asStr : Json → Option String
  | .str s => some s
  | _ => none

def Json.asInt : Json → Option Int
  | .num n => some n
  | _ => none

def Json.asBool : Json → Option Bool
  | .bool b => some b
  | _ => none

def decodeStrList : List Json → Option (List String)
  | [] => some []
  | j :: js => do
    let s ← j.asStr
    let ss ← decodeStrList js
    pure (s :: ss)

def Json.getStr (j : Json) (k : String) : Option String :=
  (j.getField k).bind Json.asStr

def Json.getInt (j : Json) (k : String) : Option Int :=
  (j.getField k).bind Json.asInt

def Json.getBool (j : Json) (k : String) : Option Bool :=
  (j.getField k).bind Json.asBool

def Json.getStrList (j : Json) (k : String) : Option (List String) :=
  match j.getField k with
  | some (.arr xs) => decodeStrList xs
  | _ => none

/-- An absent optional field decodes to `none`. -/
def Json.getOptStr (j : Json) (k : String) : Option (Option String) :=
  match j.getField k with
  | some v => v.asStr.map some
  | none => some none

def decodeMedication (j : Json) : Option Medication :=
  (j.getStrList "times").bind fun times =>
  match j.getStr "id", j.getStr "name", j.getStr "dosage",
    j.getStr "startDate", j.getStr "duration", j.getStr "color",
    j.getBool "reminderEnabled", j.getBool "reminderRepeat",
    j.getInt "repeatCount", j.getInt "currentSupply", j.getInt "totalSupply",
    j.getInt "refillAt", j.getBool "refillReminder",
    j.getOptStr "lastRefillDate" with
  | some id, some name, some dosage, some startDate, some duration,
    some color, some reminderEnabled, some reminderRepeat, some repeatCount,
    some currentSupply, some totalSupply, some refillAt, some refillReminder,
    some lastRefillDate =>
    some ⟨id, name, dosage, times, startDate, duration, color, reminderEnabled,
      reminderRepeat, repeatCount, currentSupply, totalSupply, refillAt,
      refillReminder, lastRefillDate⟩
  | _, _, _, _, _, _, _, _, _, _, _, _, _, _ => none

def decodeDose (j : Json) : Option DoseHistory :=
  match j.getStr "id", j.getStr "medicationId", j.getStr "timestamp",
    j.getBool "taken" with
  | some id, some medicationId, some timestamp, some taken =>
    some ⟨id, medicationId, timestamp, taken⟩
  | _, _, _, _ => none

def decodeList (dec : Json → Option α) : List Json → Option (List α)
  | [] => some []
  | j :: js => do
    let x ← dec j
    let xs ← decodeList dec js
    pure (x :: xs)

/-- `JSON.stringify(medications)`. -/
def encodeMeds (l : List Medication) : Json := .arr (l.map encodeMedication)

/-- `JSON.stringify(history)`. -/
def encodeDoses (l : List DoseHistory) : Json := .arr (l.map encodeDose)

/-- `JSON.parse` of a medications blob. -/
def decodeMedList : Json → Option (List Medication)
  | .arr xs => decodeList decodeMedication xs
  | _ => none

/-- `JSON.parse` of a dose-history blob. -/
def decodeDoseList : Json → Option (List DoseHistory)
  | .arr xs => decodeList decodeDose xs
  | _ => none

/-! ## The record repository (`src/utils/storage.ts`) -/

/-- The AsyncStorage contents under the two fixed keys
`"@medications"` and `"@dose_history"` (`none` = key absent). -/
structure Store where
  meds : Option Json
  doses : Option Json

/-- `getMedications()`: returns `[]` when the key is absent; a throwing
`getItem` (`gFail`) or a blob that fails to parse is caught and also
yields `[]` — read failures never propagate. -/
def getMedications (gFail : Bool) (s : Store) : List Medication :=
  if gFail then []
  else
    match s.meds with
    | some blob => (decodeMedList blob).getD []
    | none => []

/-- `getDoseHistory()`, with the same null-safe contract. -/
def getDoseHistory (gFail : Bool) (s : Store) : List DoseHistory :=
  if gFail then []
  else
    match s.doses with
    | some blob => (decodeDoseList blob).getD []
    | none => []

/-- `addMedication(medication)`: read, push, write back; a throwing
`setItem` (`sFail`) propagates. -/
def addMedication (gFail sFail : Bool) (s : Store) (medication : Medication) :
    Except Unit Store :=
  let medications := getMedications gFail s
  let medications := medications ++ [medication]
  if sFail then .error ()
  else .ok { s with meds := some (encodeMeds medications) }

/-- `updateMedication(updatedMedication)`: replace the entry at the first
index whose id matches and write back; when `findIndex` misses, no write
happens and the call resolves. -/
def updateMedication (gFail sFail : Bool) (s : Store)
    (updatedMedication : Medication) : Except Unit Store :=
  let medications := getMedications gFail s
  match medications.findIdx? (fun med => med.id == updatedMedication.id) with
  | some index =>
    let medications := medications.set index updatedMedication
    if sFail then .error ()
    else .ok { s with meds := some (encodeMeds medications) }
  | none => .ok s

/-- `recordDose(medicationId, taken, timestamp)`: append a new history
entry (fresh random id `newId`) and write it; when `taken`, re-read the
medications, find the one with this id and, if its supply is positive,
decrement it by one via `updateMedication`.  Fail flags, in call order:
`gdFail` the history read, `sdFail` the history write, `gmFail` the
medications read, `guFail`/`suFail` the read/write inside
`updateMedication`. -/
def recordDose (newId : String) (gdFail sdFail gmFail guFail suFail : Bool)
    (s : Store) (medicationId : String) (taken : Bool) (timestamp : String) :
    Except Unit Store :=
  let history := getDoseHistory gdFail s
  let newDose : DoseHistory :=
    { id := newId, medicationId := medicationId, timestamp := timestamp,
      taken := taken }
  let history := history ++ [newDose]
  if sdFail then .error ()
  else
    let s := { s with doses := some (encodeDoses history) }
    if taken then
      let medications := getMedications gmFail s
      match medications.find? (fun med => med.id == medicationId) with
      | some medication =>
        if medication.currentSupply > 0 then
          updateMedication guFail suFail s
            { medication with currentSupply := medication.currentSupply - 1 }
        else .ok s
      | none => .ok s
    else .ok s

/-- `clearDataForDateRange(startDate, endDate)`: keep only medications
whose start date and doses whose timestamp fall strictly outside
`[startDate, endDate]`, then write both collections back (`smFail` /
`sdFail` are the two writes). -/
def clearDataForDateRange (gmFail gdFail smFail sdFail : Bool) (s : Store)
    (startDate endDate : Int) : Except Unit Store :=
  let medications := getMedications gmFail s
  let doseHistory := getDoseHistory gdFail s
  let filteredMedications := medications.filter fun med =>
    decide (parseDate med.startDate < startDate) ||
      decide (endDate < parseDate med.startDate)
  let filteredDoseHistory := doseHistory.filter fun dose =>
    decide (parseDate dose.timestamp < startDate) ||
      decide (endDate < parseDate dose.timestamp)
  if smFail then .error ()
  else
    let s := { s with meds := some (encodeMeds filteredMedications) }
    if sdFail then .error ()
    else .ok { s with doses := some (encodeDoses filteredDoseHistory) }

/-- `deleteMedication(id)`: keep only the entries whose id differs and
write the remainder back; a throwing `setItem` (`sFail`) propagates. -/
def deleteMedication (gFail sFail : Bool) (s : Store) (id : String) :
    Except Unit Store :=
  let medications := getMedications gFail s
  let updatedMedications := medications.filter fun med => !(med.id == id)
  if sFail then .error ()
  else .ok { s with meds := some (encodeMeds updatedMedications) }

/-- `clearAllData()`: `removeItem` on the medications key, then on the
dose-history key; either call throwing (`rmFail` / `rdFail`) propagates. -/
def clearAllData (rmFail rdFail : Bool) (s : Store) : Except Unit Store :=
  if rmFail then .error ()
  else
    let s := { s with meds := none }
    if rdFail then .error ()
    else .ok { s with doses := none }

/-- `clearOldData(beforeDate)`: keep only medications starting on or
after `beforeDate` and doses with timestamp on or after it, then write
both collections back (`smFail` / `sdFail` are the two writes). -/
def clearOldData (gmFail gdFail smFail sdFail : Bool) (s : Store)
    (beforeDate : Int) : Except Unit Store :=
  let medications := getMedications gmFail s
  let doseHistory := getDoseHistory gdFail s
  let filteredMedications := medications.filter fun med =>
    decide (beforeDate ≤ parseDate med.startDate)
  let filteredDoseHistory := doseHistory.filter fun dose =>
    decide (beforeDate ≤ parseDate dose.timestamp)
  if smFail then .error ()
  else
    let s := { s with meds := some (encodeMeds filteredMedications) }
    if sdFail then .error ()
    else .ok { s with doses := some (encodeDoses filteredDoseHistory) }

/-- Spec-side description of `updateMedication`'s list transform: replace
the first entry whose id matches, leave every other entry unchanged in
value and position. -/
def replaceFirst (um : Medication) : List Medication → List Medication
  | [] => []
  | med :: rest =>
    if med.id == um.id then um :: rest else med :: replaceFirst um rest

/-! ## Concrete instances used by the witness theorems -/

def medThirtyDays : Medication :=
  ⟨"med-1", "Aspirin", "100mg", ["08:00"], "2024-01-01", "30 days", "#1a8e2d",
    true, false, 0, 10, 30, 5, true, none⟩

def medOngoing : Medication :=
  ⟨"med-2", "Lisinopril", "10mg", ["09:00"], "2024-01-01", "Ongoing", "#146922",
    true, false, 0, 10, 30, 5, true, none⟩

def medMalformed : Medication :=
  ⟨"med-3", "Vitamin D", "1000IU", ["10:00"], "2024-01-01", "Twice daily",
    "#333333", false, false, 0, 10, 30, 5, false, some "2024-01-02"⟩

def medZeroDays : Medication :=
  ⟨"med-4", "Trial", "5mg", [], "2024-01-01", "0 days", "#ffffff",
    false, false, 0, 3, 3, 1, false, none⟩

def medSupplyOne : Medication :=
  ⟨"med-5", "Ibuprofen", "200mg", ["12:00"], "2024-01-01", "Ongoing",
    "#abcdef", false, false, 0, 1, 10, 2, false, none⟩

def medSupplyOneTaken : Medication :=
  ⟨"med-5", "Ibuprofen", "200mg", ["12:00"], "2024-01-01", "Ongoing",
    "#abcdef", false, false, 0, 0, 10, 2, false, none⟩

def medMarch : Medication :=
  ⟨"med-6", "Metformin", "500mg", ["07:00"], "2024-03-10", "Ongoing",
    "#222222", true, true, 2, 60, 60, 10, true, none⟩

def doseJanFive : DoseHistory :=
  ⟨"dose-1", "med-1", "2024-01-05T08:00:00.000Z", true⟩

def doseJanFifteen : DoseHistory :=
  ⟨"dose-2", "med-1", "2024-01-15T10:00:00.000Z", false⟩

def doseFebFive : DoseHistory :=
  ⟨"dose-3", "med-6", "2024-02-05T07:00:00.000Z", true⟩

def doseSkipped : DoseHistory :=
  ⟨"dose-7", "med-1", "2024-01-06T09:00:00.000Z", false⟩

def doseTakenNew : DoseHistory :=
  ⟨"dose-9", "med-5", "2024-01-02T08:00:00.000Z", true⟩

def storeOne : Store :=
  ⟨some (encodeMeds [medThirtyDays]), some (encodeDoses [doseJanFive])⟩

def storeOneAdded : Store :=
  ⟨some (encodeMeds [medThirtyDays, medOngoing]),
    some (encodeDoses [doseJanFive])⟩

def storeOneSkipped : Store :=
  ⟨some (encodeMeds [medThirtyDays]),
    some (encodeDoses [doseJanFive, doseSkipped])⟩

def storeSupplyOne : Store := ⟨some (encodeMeds [medSupplyOne]), none⟩

def storeSupplyOneTaken : Store :=
  ⟨some (encodeMeds [medSupplyOneTaken]),
    some (encodeDoses [doseTakenNew])⟩

def doseTakenAgain : DoseHistory :=
  ⟨"dose-10", "med-5", "2024-01-03T08:00:00.000Z", true⟩

def storeSupplyOneTakenTwice : Store :=
  ⟨some (encodeMeds [medSupplyOneTaken]),
    some (encodeDoses [doseTakenNew, doseTakenAgain])⟩

def storeRange : Store :=
  ⟨some (encodeMeds [medThirtyDays, medMarch]),
    some (encodeDoses [doseJanFifteen, doseFebFive])⟩

def storeRangeCleared : Store :=
  ⟨some (encodeMeds [medMarch]), some (encodeDoses [doseFebFive])⟩

/-! ## Serialization round-trip lemmas -/

theorem decodeStrList_map_str (l : List String) :
    decodeStrList (l.map Json.str) = some l := by
  induction l with
  | nil => rfl
  | cons a l ih => simp [decodeStrList, Json.asStr, ih]

theorem decodeMedication_encodeMedication (m : Medication) :
    decodeMedication (encodeMedication m) = some m := by
  obtain ⟨id, name, dosage, times, startDate, duration, color, re, rr, rc,
    cs, ts, ra, rf, lrd⟩ := m
  cases lrd with
  | none =>
    unfold decodeMedication
    rw [show (encodeMedication
        ⟨id, name, dosage, times, startDate, duration, color, re, rr, rc,
          cs, ts, ra, rf, none⟩).getStrList "times" =
      decodeStrList (times.map Json.str) from rfl, decodeStrList_map_str]
    rfl
  | some d =>
    unfold decodeMedication
    rw [show (encodeMedication
        ⟨id, name, dosage, times, startDate, duration, color, re, rr, rc,
          cs, ts, ra, rf, some d⟩).getStrList "times" =
      decodeStrList (times.map Json.str) from rfl, decodeStrList_map_str]
    rfl

theorem decodeMedList_encodeMeds (l : List Medication) :
    decodeMedList (encodeMeds l) = some l := by
  induction l with
  | nil => rfl
  | cons m l ih =>
    simp_all [encodeMeds, decodeMedList, decodeList,
      decodeMedication_encodeMedication]

theorem decodeDose_encodeDose (d : DoseHistory) :
    decodeDose (encodeDose d) = some d := by
  obtain ⟨id, medicationId, timestamp, taken⟩ := d
  rfl

theorem decodeDoseList_encodeDoses (l : List DoseHistory) :
    decodeDoseList (encodeDoses l) = some l := by
  induction l with
  | nil => rfl
  | cons d l ih =>
    simp_all [encodeDoses, decodeDoseList, decodeList, decodeDose_encodeDose]

/-! ## Store read lemmas -/

theorem getMedications_encode (dj : Option Json) (l : List Medication) :
    getMedications false ⟨some (encodeMeds l), dj⟩ = l := by
  simp [getMedications, decodeMedList_encodeMeds]

theorem getDoseHistory_encode (mj : Option Json) (l : List DoseHistory) :
    getDoseHistory false ⟨mj, some (encodeDoses l)⟩ = l := by
  simp [getDoseHistory, decodeDoseList_encodeDoses]

theorem getMedications_doses_irrel (g : Bool) (mj d1 d2 : Option Json) :
    getMedications g ⟨mj, d1⟩ = getMedications g ⟨mj, d2⟩ := rfl

theorem getMedications_congr {s1 s2 : Store} (g : Bool) (h : s1.meds = s2.meds) :
    getMedications g s1 = getMedications g s2 := by
  obtain ⟨m1, d1⟩ := s1
  obtain ⟨m2, d2⟩ := s2
  cases h
  rfl

/-! ## Scheduling predicate: core characterizations -/

theorem sched_core_fixed (m : Medication) (n : Nat) (d : Int)
    (hdur : m.duration ≠ "Ongoing") (hn : firstNat m.duration = some n) :
    isMedicationScheduledForDate m d = true ↔
      normDate (parseDate m.startDate) ≤ normDate d ∧
      normDate d ≤ addDays (normDate (parseDate m.startDate)) ((n : Int) - 1) := by
  unfold isMedicationScheduledForDate
  simp only [hn]
  split_ifs with h1 h2
  · simp only [false_iff]
    omega
  · simp only [false_iff]
    omega
  · simp only [eq_self_iff_true, true_iff]
    omega

theorem sched_core_unbounded (m : Medication) (d : Int)
    (h : m.duration = "Ongoing" ∨ firstNat m.duration = none) :
    isMedicationScheduledForDate m d = true ↔
      normDate (parseDate m.startDate) ≤ normDate d := by
  unfold isMedicationScheduledForDate
  rcases h with h | h
  · simp only [h, ne_eq, not_true_eq_false, if_false]
    split_ifs with h1
    · simp only [false_iff]
      omega
    · simp only [eq_self_iff_true, true_iff]
      omega
  · simp only [h]
    split_ifs with h1 h2
    · simp only [false_iff]
      omega
    · simp only [eq_self_iff_true, true_iff]
      omega
    · simp only [eq_self_iff_true, true_iff]
      omega

/-! ## Scheduling claims -/

/-- Claim C1: for a medication whose duration string is not the literal
"Ongoing" and whose first embedded integer parses as `n`, the medication
is scheduled on a date exactly when the normalized date lies between the
normalized start date and the start date plus `n - 1` days, inclusive. -/
theorem isScheduled_fixed_window (m : Medication) (n : Nat) (d : Int)
    (hdur : m.duration ≠ "Ongoing") (hn : firstNat m.duration = some n) :
    isMedicationScheduledForDate m d = true ↔
      normDate (parseDate m.startDate) ≤ normDate d ∧
      normDate d ≤ addDays (normDate (parseDate m.startDate)) ((n : Int) - 1) :=
  sched_core_fixed m n d hdur hn

/-- Witness for C1 at duration "30 days", start date 2024-01-01: scheduled
on 2024-01-30 (epoch ms 1706572800000), not on 2024-01-31. -/
theorem isScheduled_fixed_window_witness :
    isMedicationScheduledForDate medThirtyDays 1706572800000 = true ∧
    isMedicationScheduledForDate medThirtyDays 1706659200000 = false := by
  constructor
  · exact (isScheduled_fixed_window medThirtyDays 30 1706572800000
      (by decide) (by decide)).mpr (by decide)
  · by_contra hfalse
    have hb : isMedicationScheduledForDate medThirtyDays 1706659200000 = true := by
      revert hfalse
      cases isMedicationScheduledForDate medThirtyDays 1706659200000 <;> simp
    have := (isScheduled_fixed_window medThirtyDays 30 1706659200000
      (by decide) (by decide)).mp hb
    revert this
    decide

/-- Claim C4: for a medication whose duration is the literal "Ongoing",
the medication is scheduled on a date exactly when the normalized date is
on or after the normalized start date (no upper bound). -/
theorem isScheduled_ongoing_iff (m : Medication) (d : Int)
    (hdur : m.duration = "Ongoing") :
    isMedicationScheduledForDate m d = true ↔
      normDate (parseDate m.startDate) ≤ normDate d :=
  sched_core_unbounded m d (Or.inl hdur)

/-- Witness for C4: the "Ongoing" medication starting 2024-01-01 is
scheduled on 2024-01-30 and not scheduled on 2023-12-31. -/
theorem isScheduled_ongoing_iff_witness :
    isMedicationScheduledForDate medOngoing 1706572800000 = true ∧
    isMedicationScheduledForDate medOngoing 1703980800000 = false := by
  constructor
  · exact (isScheduled_ongoing_iff medOngoing 1706572800000 (by decide)).mpr
      (by decide)
  · by_contra hfalse
    have hb : isMedicationScheduledForDate medOngoing 1703980800000 = true := by
      revert hfalse
      cases isMedicationScheduledForDate medOngoing 1703980800000 <;> simp
    have := (isScheduled_ongoing_iff medOngoing 1703980800000 (by decide)).mp hb
    revert this
    decide

/-- Claim C5: for a medication whose duration is not "Ongoing" but
contains no integer, the malformed duration string is not an error: the
medication behaves as unbounded, scheduled exactly when the normalized
date is on or after the normalized start date. -/
theorem isScheduled_malformed_unbounded (m : Medication) (d : Int)
    (_hdur : m.duration ≠ "Ongoing") (hn : firstNat m.duration = none) :
    isMedicationScheduledForDate m d = true ↔
      normDate (parseDate m.startDate) ≤ normDate d :=
  sched_core_unbounded m d (Or.inr hn)

/-- Witness for C5: duration "Twice daily" (no digits) behaves as
unbounded from its 2024-01-01 start date. -/
theorem isScheduled_malformed_unbounded_witness :
    isMedicationScheduledForDate medMalformed 1706659200000 = true := by
  exact (isScheduled_malformed_unbounded medMalformed 1706659200000
    (by decide) (by decide)).mpr (by decide)

/-- Claim C9: a medication whose duration string parses to the integer 0
(such as "0 days") is scheduled on no date at all, because the computed
end date is one day before the start date. -/
theorem isScheduled_zero_days_never (m : Medication) (d : Int)
    (hdur : m.duration ≠ "Ongoing") (hn : firstNat m.duration = some 0) :
    isMedicationScheduledForDate m d = false := by
  cases hb : isMedicationScheduledForDate m d with
  | false => rfl
  | true =>
    exfalso
    have h := (sched_core_fixed m 0 d hdur hn).mp hb
    simp only [addDays, msPerDay, Nat.cast_zero] at h
    omega

/-- Witness for C9: the "0 days" medication is not scheduled even on its
own start date 2024-01-01. -/
theorem isScheduled_zero_days_never_witness :
    isMedicationScheduledForDate medZeroDays 1704067200000 = false :=
  isScheduled_zero_days_never medZeroDays 1704067200000 (by decide) (by decide)

/-! ## Repository: list-level helper lemmas -/

theorem set_findIdx?_eq_replaceFirst (um : Medication) (l : List Medication) :
    (match l.findIdx? (fun med => med.id == um.id) with
     | some i => l.set i um
     | none => l) = replaceFirst um l := by
  induction l with
  | nil => rfl
  | cons a l ih =>
    simp only [List.findIdx?_cons, Nat.zero_add, List.findIdx?_succ]
    by_cases h : (a.id == um.id)
    · simp [h, replaceFirst]
    · simp only [h, if_false, replaceFirst]
      cases hfi : l.findIdx? (fun med => med.id == um.id) with
      | none =>
        rw [hfi] at ih
        simpa using ih
      | some i =>
        rw [hfi] at ih
        simp [← ih, List.set]

theorem mem_replaceFirst {x um : Medication} {l : List Medication}
    (h : x ∈ replaceFirst um l) : x ∈ l ∨ x = um := by
  induction l with
  | nil => simp [replaceFirst] at h
  | cons a l ih =>
    simp only [replaceFirst] at h
    by_cases ha : (a.id == um.id)
    · rw [if_pos ha] at h
      rcases List.mem_cons.mp h with h1 | h1
      · right; exact h1
      · left; exact List.mem_cons_of_mem a h1
    · rw [if_neg ha] at h
      rcases List.mem_cons.mp h with h1 | h1
      · left; exact h1 ▸ List.mem_cons_self a l
      · rcases ih h1 with h2 | h2
        · left; exact List.mem_cons_of_mem a h2
        · right; exact h2

theorem find?_replaceFirst (mid : String) (um med : Medication)
    (l : List Medication) (hum : um.id = mid)
    (h : l.find? (fun x => x.id == mid) = some med) :
    (replaceFirst um l).find? (fun x => x.id == mid) = some um := by
  subst hum
  induction l with
  | nil => simp at h
  | cons a l ih =>
    simp only [replaceFirst]
    by_cases ha : (a.id == um.id)
    · rw [if_pos ha]
      exact List.find?_cons_of_pos l (beq_self_eq_true um.id)
    · rw [if_neg ha]
      have hneg : ¬((fun x => x.id == um.id) a = true) := ha
      rw [List.find?_cons_of_neg l hneg] at h
      rw [List.find?_cons_of_neg (replaceFirst um l) hneg]
      exact ih h

theorem findIdx?_isSome_of_find? (p : Medication → Bool) (l : List Medication)
    (x : Medication) (h : l.find? p = some x) :
    (l.findIdx? p).isSome = true := by
  rw [List.findIdx?_isSome, List.any_eq_true]
  exact ⟨x, List.mem_of_find?_eq_some h, List.find?_some h⟩

/-! ## Repository: operation characterizations (no store failures) -/

theorem updateMedication_ok (s : Store) (um : Medication)
    (h : ((getMedications false s).findIdx?
      (fun med => med.id == um.id)).isSome = true) :
    updateMedication false false s um =
      .ok { s with
        meds := some (encodeMeds (replaceFirst um (getMedications false s))) } := by
  unfold updateMedication
  cases hfi : (getMedications false s).findIdx? (fun med => med.id == um.id) with
  | none => rw [hfi] at h; simp at h
  | some i =>
    have hset : (getMedications false s).set i um =
        replaceFirst um (getMedications false s) := by
      have h0 := set_findIdx?_eq_replaceFirst um (getMedications false s)
      rw [hfi] at h0
      exact h0
    simp [hfi, hset]

theorem updateMedication_noMatch (s : Store) (um : Medication)
    (h : (getMedications false s).findIdx? (fun med => med.id == um.id) = none) :
    updateMedication false false s um = .ok s := by
  simp only [updateMedication]
  simp [h]

theorem recordDose_ok_chars (mj dj : Option Json) (newId mid ts : String)
    (tk : Bool) :
    recordDose newId false false false false false ⟨mj, dj⟩ mid tk ts =
      .ok ⟨(if tk then
          match (getMedications false ⟨mj, dj⟩).find?
              (fun med => med.id == mid) with
          | some med =>
            if 0 < med.currentSupply then
              some (encodeMeds (replaceFirst
                { med with currentSupply := med.currentSupply - 1 }
                (getMedications false ⟨mj, dj⟩)))
            else mj
          | none => mj
        else mj),
        some (encodeDoses
          (getDoseHistory false ⟨mj, dj⟩ ++ [⟨newId, mid, ts, tk⟩]))⟩ := by
  cases tk with
  | false => simp [recordDose]
  | true =>
    simp only [recordDose, Bool.false_eq_true, if_false, if_true]
    rw [getMedications_doses_irrel false mj _ dj]
    cases hf : (getMedications false ⟨mj, dj⟩).find?
        (fun med => med.id == mid) with
    | none => simp
    | some med =>
      have hmid : med.id = mid := by
        have := List.find?_some hf
        exact eq_of_beq this
      subst hmid
      by_cases hsup : 0 < med.currentSupply
      · simp only [hsup, if_true]
        exact updateMedication_ok
          ⟨mj, some (encodeDoses (getDoseHistory false ⟨mj, dj⟩ ++
            [⟨newId, med.id, ts, true⟩]))⟩
          { med with currentSupply := med.currentSupply - 1 }
          (findIdx?_isSome_of_find? _ _ med hf)
      · simp only [hsup, if_false]

theorem getMedications_of_meds_eq {s : Store} {l : List Medication}
    (h : s.meds = some (encodeMeds l)) : getMedications false s = l := by
  obtain ⟨mj, dj⟩ := s
  replace h : mj = some (encodeMeds l) := h
  subst h
  exact getMedications_encode _ _

theorem getDoseHistory_of_doses_eq {s : Store} {l : List DoseHistory}
    (h : s.doses = some (encodeDoses l)) : getDoseHistory false s = l := by
  obtain ⟨mj, dj⟩ := s
  replace h : dj = some (encodeDoses l) := h
  subst h
  exact getDoseHistory_encode _ _

/-! ## Repository claims -/

/-- Claim C2: recording a taken dose preserves non-negativity of every
stored supply; the first medication matching the id has its supply
decremented by exactly 1 when it is positive, and is left untouched (so
a zero supply stays zero, never negative) when it is not. -/
theorem recordDose_supply_invariant (s s' : Store) (newId mid ts : String)
    (h : recordDose newId false false false false false s mid true ts = .ok s')
    (hnn : ∀ m ∈ getMedications false s, 0 ≤ m.currentSupply) :
    (∀ m ∈ getMedications false s', 0 ≤ m.currentSupply) ∧
    (∀ med, (getMedications false s).find? (fun x => x.id == mid) = some med →
      0 < med.currentSupply →
      (getMedications false s').find? (fun x => x.id == mid) =
        some { med with currentSupply := med.currentSupply - 1 }) ∧
    (∀ med, (getMedications false s).find? (fun x => x.id == mid) = some med →
      med.currentSupply ≤ 0 →
      getMedications false s' = getMedications false s) := by
  obtain ⟨mj, dj⟩ := s
  rw [recordDose_ok_chars mj dj newId mid ts true, Except.ok.injEq] at h
  have hmeds := congrArg Store.meds h
  cases hf : (getMedications false ⟨mj, dj⟩).find? (fun x => x.id == mid) with
  | none =>
    simp only [hf, if_pos] at hmeds
    have hL : getMedications false s' = getMedications false ⟨mj, dj⟩ :=
      getMedications_congr false hmeds.symm
    refine ⟨?_, ?_, ?_⟩
    · intro x hx
      rw [hL] at hx
      exact hnn x hx
    · intro med hmed
      exact absurd hmed (by simp)
    · intro med hmed
      exact absurd hmed (by simp)
  | some med =>
    have hmid : med.id = mid := by simpa using List.find?_some hf
    by_cases hsup : 0 < med.currentSupply
    · simp only [hf, hsup, if_pos] at hmeds
      have hL : getMedications false s' =
          replaceFirst { med with currentSupply := med.currentSupply - 1 }
            (getMedications false ⟨mj, dj⟩) :=
        getMedications_of_meds_eq hmeds.symm
      refine ⟨?_, ?_, ?_⟩
      · intro x hx
        rw [hL] at hx
        rcases mem_replaceFirst hx with h1 | h1
        · exact hnn x h1
        · subst h1
          have hsupmed := hnn med (List.mem_of_find?_eq_some hf)
          have hgoal : (0:Int) ≤ med.currentSupply - 1 := by omega
          exact hgoal
      · intro med' hmed' _
        have heq : med = med' := Option.some.inj hmed'
        subst heq
        rw [hL]
        exact find?_replaceFirst mid _ med _ hmid hf
      · intro med' hmed' hsup'
        have heq : med = med' := Option.some.inj hmed'
        subst heq
        omega
    · simp only [hf, hsup, if_neg, if_pos] at hmeds
      have hL : getMedications false s' = getMedications false ⟨mj, dj⟩ :=
        getMedications_congr false hmeds.symm
      refine ⟨?_, ?_, ?_⟩
      · intro x hx
        rw [hL] at hx
        exact hnn x hx
      · intro med' hmed' hsup'
        have heq : med = med' := Option.some.inj hmed'
        subst heq
        exact absurd hsup' hsup
      · intro med' hmed' hsup'
        exact hL

/-- Claim C10: when the dose is not taken, or the id matches no stored
medication, or the matched medication has zero supply, `recordDose` still
appends and persists the new history entry with the given id, timestamp
and taken flag, and leaves the medications blob entirely unchanged. -/
theorem recordDose_frame (s s' : Store) (newId mid ts : String) (tk : Bool)
    (h : recordDose newId false false false false false s mid tk ts = .ok s')
    (hcase : tk = false ∨
      (getMedications false s).find? (fun med => med.id == mid) = none ∨
      ∃ med, (getMedications false s).find? (fun med => med.id == mid) =
          some med ∧ med.currentSupply = 0) :
    getDoseHistory false s' = getDoseHistory false s ++ [⟨newId, mid, ts, tk⟩] ∧
    s'.meds = s.meds := by
  obtain ⟨mj, dj⟩ := s
  rw [recordDose_ok_chars mj dj newId mid ts tk, Except.ok.injEq] at h
  have hmeds := congrArg Store.meds h
  have hdoses := congrArg Store.doses h
  constructor
  · exact getDoseHistory_of_doses_eq hdoses.symm
  · rcases hcase with htk | hnone | ⟨med, hfind, hzero⟩
    · subst htk
      simpa using hmeds.symm
    · rw [hnone] at hmeds
      simpa using hmeds.symm
    · rw [hfind] at hmeds
      simp [hzero] at hmeds
      simpa using hmeds.symm

theorem outside_range_bool (a b x : Int) :
    (decide (x < a) || decide (b < x)) =
      (!(decide (a ≤ x) && decide (x ≤ b))) := by
  cases hd1 : decide (x < a) <;> cases hd2 : decide (b < x) <;>
    cases hd3 : decide (a ≤ x) <;> cases hd4 : decide (x ≤ b) <;>
      simp_all <;> omega

/-- Claim C3: `clearDataForDateRange(start, end)` removes exactly the
medications whose start date lies in the inclusive range `[start, end]`
and exactly the dose-history entries whose timestamp lies in that range;
entries strictly outside survive in order, boundary entries are removed. -/
theorem clearDataForDateRange_filters (s s' : Store) (a b : Int)
    (h : clearDataForDateRange false false false false s a b = .ok s') :
    getMedications false s' = (getMedications false s).filter
      (fun med => !(decide (a ≤ parseDate med.startDate) &&
        decide (parseDate med.startDate ≤ b))) ∧
    getDoseHistory false s' = (getDoseHistory false s).filter
      (fun dose => !(decide (a ≤ parseDate dose.timestamp) &&
        decide (parseDate dose.timestamp ≤ b))) := by
  obtain ⟨mj, dj⟩ := s
  simp only [clearDataForDateRange, Bool.false_eq_true, if_false,
    Except.ok.injEq] at h
  have hmeds := congrArg Store.meds h
  have hdoses := congrArg Store.doses h
  constructor
  · rw [getMedications_of_meds_eq hmeds.symm]
    exact List.filter_congr fun x _ =>
      outside_range_bool a b (parseDate x.startDate)
  · rw [getDoseHistory_of_doses_eq hdoses.symm]
    exact List.filter_congr fun x _ =>
      outside_range_bool a b (parseDate x.timestamp)

/-- Claim C6: `addMedication` appends exactly one entry at the end of the
persisted list, and reading the list back through the serialization
round-trip returns the very same medication value (all fields, the
absent optional `lastRefillDate` included). -/
theorem addMedication_roundtrip (s s' : Store) (m : Medication)
    (h : addMedication false false s m = .ok s') :
    getMedications false s' = getMedications false s ++ [m] := by
  obtain ⟨mj, dj⟩ := s
  simp only [addMedication, Bool.false_eq_true, if_false,
    Except.ok.injEq] at h
  have hmeds := congrArg Store.meds h
  exact getMedications_of_meds_eq hmeds.symm

/-- Claim C7: the two read operations never raise: a throwing `getItem`
or an absent blob yields the empty list; every write operation of the
repository — `addMedication`, `updateMedication`, both writes inside
`recordDose`, `deleteMedication`, both `removeItem` calls of
`clearAllData`, and both writes of `clearDataForDateRange` and of
`clearOldData` — propagates a throwing store call to the caller (for
`updateMedication` and the supply update inside `recordDose` the write
only happens when a matching entry exists). -/
theorem reads_degrade_writes_propagate (s : Store) (g : Bool)
    (m um : Medication) (newId mid ts : String) (tk : Bool) (a b : Int) :
    getMedications true s = [] ∧
    getDoseHistory true s = [] ∧
    (s.meds = none → getMedications g s = []) ∧
    (s.doses = none → getDoseHistory g s = []) ∧
    addMedication g true s m = .error () ∧
    (((getMedications false s).findIdx?
        (fun med => med.id == um.id)).isSome = true →
      updateMedication false true s um = .error ()) ∧
    recordDose newId g true g g g s mid tk ts = .error () ∧
    (∀ med, (getMedications false s).find? (fun x => x.id == mid) = some med →
      0 < med.currentSupply →
      recordDose newId false false false false true s mid true ts =
        .error ()) ∧
    clearDataForDateRange g g true g s a b = .error () ∧
    clearDataForDateRange g g false true s a b = .error () ∧
    deleteMedication g true s mid = .error () ∧
    clearAllData true g s = .error () ∧
    clearAllData false true s = .error () ∧
    clearOldData g g true g s a = .error () ∧
    clearOldData g g false true s a = .error () := by
  obtain ⟨mj, dj⟩ := s
  refine ⟨rfl, rfl, ?_, ?_, by simp [addMedication], ?_, by simp [recordDose],
    ?_, by simp [clearDataForDateRange], by simp [clearDataForDateRange],
    by simp [deleteMedication], by simp [clearAllData],
    by simp [clearAllData], by simp [clearOldData], by simp [clearOldData]⟩
  · intro h
    replace h : mj = none := h
    subst h
    cases g <;> rfl
  · intro h
    replace h : dj = none := h
    subst h
    cases g <;> rfl
  · intro h
    cases hfi : (getMedications false ⟨mj, dj⟩).findIdx?
        (fun med => med.id == um.id) with
    | none => rw [hfi] at h; simp at h
    | some i => simp [updateMedication, hfi]
  · intro med hf hsup
    simp only [recordDose, Bool.false_eq_true, if_false, if_true]
    rw [getMedications_doses_irrel false mj _ dj, hf]
    simp only [hsup, if_pos]
    have hidx := findIdx?_isSome_of_find? (fun x => x.id == mid)
      (getMedications false ⟨mj, dj⟩) med hf
    cases hfi : (getMedications false ⟨mj, dj⟩).findIdx?
        (fun x => x.id == mid) with
    | none => rw [hfi] at hidx; simp at hidx
    | some i =>
      have hmid : med.id = mid := by simpa using List.find?_some hf
      simp only [updateMedication]
      rw [getMedications_doses_irrel false mj _ dj]
      have hfi2 : (getMedications false ⟨mj, dj⟩).findIdx?
          (fun x => x.id == ({ med with
            currentSupply := med.currentSupply - 1 } : Medication).id) =
          some i := by
        rw [show ({ med with currentSupply := med.currentSupply - 1 }
          : Medication).id = mid from hmid]
        exact hfi
      rw [hfi2]
      simp

/-- Claim C8: `updateMedication` is a silent no-op (no write, store
unchanged) when no stored entry has the given id, and otherwise replaces
exactly the first id match, leaving every other entry and the dose
collection untouched. -/
theorem updateMedication_firstMatch (s : Store) (um : Medication) :
    ((∀ med ∈ getMedications false s, med.id ≠ um.id) →
      updateMedication false false s um = .ok s) ∧
    (∀ med, (getMedications false s).find? (fun x => x.id == um.id) =
        some med →
      ∃ s', updateMedication false false s um = .ok s' ∧
        getMedications false s' = replaceFirst um (getMedications false s) ∧
        s'.doses = s.doses) := by
  constructor
  · intro hall
    apply updateMedication_noMatch
    rw [List.findIdx?_eq_none_iff]
    intro x hx
    simpa using hall x hx
  · intro med hf
    obtain ⟨mj, dj⟩ := s
    exact ⟨_, updateMedication_ok ⟨mj, dj⟩ um
      (findIdx?_isSome_of_find? _ _ med hf),
      getMedications_encode dj _, rfl⟩

/-! ## Witnesses for the repository claims -/

/-- Witness for C2: taking a dose of the supply-1 medication persists
supply 0, and a second taken dose leaves the medication list unchanged
(supply stays 0, never negative). -/
theorem recordDose_supply_invariant_witness :
    (getMedications false storeSupplyOneTaken).find?
        (fun x => x.id == "med-5") =
      some { medSupplyOne with
        currentSupply := medSupplyOne.currentSupply - 1 } ∧
    getMedications false storeSupplyOneTakenTwice =
      getMedications false storeSupplyOneTaken := by
  constructor
  · exact (recordDose_supply_invariant storeSupplyOne storeSupplyOneTaken
      "dose-9" "med-5" "2024-01-02T08:00:00.000Z" rfl (by decide)).2.1
      medSupplyOne rfl (by decide)
  · exact (recordDose_supply_invariant storeSupplyOneTaken
      storeSupplyOneTakenTwice "dose-10" "med-5" "2024-01-03T08:00:00.000Z"
      rfl (by decide)).2.2 medSupplyOneTaken rfl (by decide)

/-- Witness for C3: clearing the range 2024-01-01..2024-01-31 removes the
boundary-start medication and the in-range dose, keeping the March
medication and the February dose. -/
theorem clearDataForDateRange_filters_witness :
    getMedications false storeRangeCleared =
      (getMedications false storeRange).filter
        (fun med => !(decide ((1704067200000:Int) ≤ parseDate med.startDate) &&
          decide (parseDate med.startDate ≤ (1706659200000:Int)))) ∧
    getDoseHistory false storeRangeCleared =
      (getDoseHistory false storeRange).filter
        (fun dose => !(decide ((1704067200000:Int) ≤ parseDate dose.timestamp) &&
          decide (parseDate dose.timestamp ≤ (1706659200000:Int)))) :=
  clearDataForDateRange_filters storeRange storeRangeCleared
    1704067200000 1706659200000 rfl

/-- Witness for C6: adding a medication to the one-entry store appends it
and the read-back list is value-identical. -/
theorem addMedication_roundtrip_witness :
    getMedications false storeOneAdded =
      getMedications false storeOne ++ [medOngoing] :=
  addMedication_roundtrip storeOne storeOneAdded medOngoing rfl

/-- Witness for C7: a throwing read yields the empty list while a
throwing write propagates as an error. -/
theorem reads_degrade_writes_propagate_witness :
    getMedications true storeOne = [] ∧
    addMedication false true storeOne medOngoing = .error () := by
  have h := reads_degrade_writes_propagate storeOne false medOngoing
    medOngoing "dose-9" "med-1" "2024-01-06T09:00:00.000Z" true 0 0
  exact ⟨h.1, h.2.2.2.2.1⟩

/-- Witness for C8: updating an id absent from the store resolves with
the store unchanged; updating the present id replaces the first match. -/
theorem updateMedication_firstMatch_witness :
    updateMedication false false storeOne medMarch = .ok storeOne ∧
    ∃ s', updateMedication false false storeOne medThirtyDays = .ok s' ∧
      getMedications false s' =
        replaceFirst medThirtyDays (getMedications false storeOne) ∧
      s'.doses = storeOne.doses :=
  ⟨(updateMedication_firstMatch storeOne medMarch).1 (by decide),
   (updateMedication_firstMatch storeOne medThirtyDays).2 medThirtyDays rfl⟩

/-- Witness for C10: a skipped (taken = false) dose is appended to the
history while the medications blob is untouched. -/
theorem recordDose_frame_witness :
    getDoseHistory false storeOneSkipped =
      getDoseHistory false storeOne ++ [doseSkipped] ∧
    storeOneSkipped.meds = storeOne.meds :=
  recordDose_frame storeOne storeOneSkipped "dose-7" "med-1"
    "2024-01-06T09:00:00.000Z" false rfl (Or.inl rfl)
